import Mathlib

/-!
Shallow embedding of the Bounded Collection & Matrix Library
(`src/generated/python/safe_list.py` and `src/generated/python/func.py`).

Python lists become Lean `List`s, Python `int` becomes `Int` (arbitrary
precision in both), and a failing `assert cond, msg` becomes an
`Except.error` carrying a constructor that records which assert statement
fired together with the values interpolated into its message.  All
operations are pure in the source, so state passing is not needed except
for the heap-level model used for the aliasing claim, where Python list
objects are modelled as addresses into an explicit store.
-/

namespace SafeList

/-- One constructor per `assert` statement in `safe_list.py`; the fields are
the values the source interpolates into the assertion message.  Which
`AssertionError` a call raises is fully determined by which assert failed. -/
inductive AssertionError where
  | indexMustBeInt : AssertionError
  | indexOutOfBounds (i : Int) (n : Nat) : AssertionError
  | takeNegative (n : Int) : AssertionError
  | takeTooShort (len : Nat) (n : Int) : AssertionError
  | takePost : AssertionError
  | dropNegative (n : Int) : AssertionError
  | dropTooShort (n : Int) (len : Nat) : AssertionError
  | dropPost : AssertionError
  | zipLengthMismatch (n1 n2 : Nat) : AssertionError
  | zipPost : AssertionError
  | rowsNegative (rows : Int) : AssertionError
  | colsNegative (cols : Int) : AssertionError
  | dataRowsMismatch (len : Nat) (rows : Int) : AssertionError
  | rowColsMismatch (i : Nat) (len : Nat) (cols : Int) : AssertionError
  | zeroDimsNegative : AssertionError
  | rowMismatch (r1 r2 : Int) : AssertionError
  | colMismatch (c1 c2 : Int) : AssertionError
  | nonEmptyEmpty : AssertionError
  | minEmpty : AssertionError
  | maxEmpty : AssertionError
  deriving DecidableEq, Repr

/-- The assertion message raised by the corresponding assert statement in
`safe_list.py` (the `isinstance` failure message depends on the offending
Python type; `float` is the case exercised here). -/
def AssertionError.message : AssertionError → String
  | .indexMustBeInt => "Index must be int, got <class float>"
  | .indexOutOfBounds i n => s!"Index out of bounds: {i} not in range [0, {n})"
  | .takeNegative n => s!"n must be non-negative int, got {n}"
  | .takeTooShort len n => s!"Vector too short: len={len}, need at least {n}"
  | .takePost => "Postcondition: result length must equal n"
  | .dropNegative n => s!"n must be non-negative int, got {n}"
  | .dropTooShort n len => s!"Cannot drop {n} elements from vector of length {len}"
  | .dropPost => "Postcondition: length arithmetic"
  | .zipLengthMismatch n1 n2 => s!"Vectors must have same length: {n1} != {n2}"
  | .zipPost => "Postcondition: preserve length"
  | .rowsNegative rows => s!"rows must be non-negative, got {rows}"
  | .colsNegative cols => s!"cols must be non-negative, got {cols}"
  | .dataRowsMismatch len rows => s!"Data has {len} rows, expected {rows}"
  | .rowColsMismatch i len cols => s!"Row {i} has {len} cols, expected {cols}"
  | .zeroDimsNegative => "Dimensions must be non-negative"
  | .rowMismatch r1 r2 => s!"Row mismatch: {r1} != {r2}"
  | .colMismatch c1 c2 => s!"Column mismatch: {c1} != {c2}"
  | .nonEmptyEmpty => "vect_to_non_empty requires non-empty vector"
  | .minEmpty => "safe_minimum requires non-empty vector"
  | .maxEmpty => "safe_maximum requires non-empty vector"

/-- The spec's violation taxonomy (§7): three kinds, not concrete types. -/
inductive VKind where
  | contract : VKind
  | bounds : VKind
  | shape : VKind
  deriving DecidableEq, Repr

/-- Modelled from the spec (§4 and §7): the classification of each raised
assertion into the spec's violation taxonomy.  Index parameters outside
their half-open range are BoundsViolation; size disagreements between
declared dimensions and data, or between two matrices, are ShapeViolation
(§4.2 classifies all of `construct`'s failures, including negative
declared dimensions, as ShapeViolation); every other precondition failure
is the general ContractViolation. -/
def specKindOf : AssertionError → VKind
  | .indexOutOfBounds _ _ => .bounds
  | .rowsNegative _ => .shape
  | .colsNegative _ => .shape
  | .dataRowsMismatch _ _ => .shape
  | .rowColsMismatch _ _ _ => .shape
  | .rowMismatch _ _ => .shape
  | .colMismatch _ _ => .shape
  | _ => .contract

/-- A Python number passed where an `int` is expected: `isinstance(x, int)`
holds exactly on the `int` branch (a Python `float` is never an `int`,
even when its value is integral). -/
inductive PyNum where
  | int (n : Int) : PyNum
  | float (x : Rat) : PyNum
  deriving DecidableEq, Repr

/-- `safe_index(index, vec)`: asserts `isinstance(index, int)`, then
`0 <= index < len(vec)`, then returns `vec[index]`. -/
def safe_index (index : PyNum) (vec : List α) : Except AssertionError α :=
  match index with
  | .float _ => .error .indexMustBeInt
  | .int i =>
      if h : 0 ≤ i ∧ i < (vec.length : Int) then
        .ok (vec.get ⟨i.toNat, by omega⟩)
      else
        .error (.indexOutOfBounds i vec.length)

/-- `safe_take(n, vec)`: asserts `n >= 0`, then `len(vec) >= n`, computes
`vec[:n]`, asserts the postcondition `len(result) == n`, returns it. -/
def safe_take (n : Int) (vec : List α) : Except AssertionError (List α) :=
  if n < 0 then .error (.takeNegative n)
  else if (vec.length : Int) < n then .error (.takeTooShort vec.length n)
  else
    let result := vec.take n.toNat
    if (result.length : Int) = n then .ok result else .error .takePost

/-- `safe_drop(n, vec)`: asserts `n >= 0`, then `len(vec) >= n`, computes
`vec[n:]`, asserts `len(result) == len(vec) - n`, returns it. -/
def safe_drop (n : Int) (vec : List α) : Except AssertionError (List α) :=
  if n < 0 then .error (.dropNegative n)
  else if (vec.length : Int) < n then .error (.dropTooShort n vec.length)
  else
    let result := vec.drop n.toNat
    if (result.length : Int) = (vec.length : Int) - n then .ok result
    else .error .dropPost

/-- `zip_vect(vec1, vec2)`: asserts `len(vec1) == len(vec2)`, computes
`list(zip(vec1, vec2))`, asserts `len(result) == len(vec1)`, returns it. -/
def zip_vect (vec1 : List α) (vec2 : List β) :
    Except AssertionError (List (α × β)) :=
  if vec1.length ≠ vec2.length then
    .error (.zipLengthMismatch vec1.length vec2.length)
  else
    let result := vec1.zip vec2
    if result.length = vec1.length then .ok result else .error .zipPost

/-- `sum_vect(vec)`: Python's built-in `sum`, a left fold of `+` starting
from the `int` `0`. -/
def sum_vect (vec : List Int) : Int :=
  vec.foldl (· + ·) 0

/-- The `Matrix` dataclass: `rows`, `cols`, `data`.  Element type fixed to
`Int`, matching every matrix the library itself builds. -/
structure Matrix where
  rows : Int
  cols : Int
  data : List (List Int)
  deriving DecidableEq, Repr

/-- The matrix invariant from `Matrix.__post_init__`: non-negative declared
dimensions, `len(data) == rows`, and every row of length `cols`. -/
def Matrix.wf (m : Matrix) : Prop :=
  0 ≤ m.rows ∧ 0 ≤ m.cols ∧ (m.data.length : Int) = m.rows ∧
    ∀ r ∈ m.data, (r.length : Int) = m.cols

instance (m : Matrix) : Decidable m.wf := by
  unfold Matrix.wf; infer_instance

/-- The `for i, row in enumerate(self.data)` loop of `__post_init__`:
returns the first row whose length differs from `cols`, as
`(index, actual length)`, starting the enumeration at `i`. -/
def findBadRow (cols : Int) (data : List (List Int)) (i : Nat) :
    Option (Nat × Nat) :=
  match data with
  | [] => none
  | r :: rest =>
      if (r.length : Int) ≠ cols then some (i, r.length)
      else findBadRow cols rest (i + 1)

/-- `Matrix(rows, cols, data)`: the dataclass constructor always runs
`__post_init__`, whose four asserts are checked here in source order. -/
def mkMatrix (rows cols : Int) (data : List (List Int)) :
    Except AssertionError Matrix :=
  if rows < 0 then .error (.rowsNegative rows)
  else if cols < 0 then .error (.colsNegative cols)
  else if (data.length : Int) ≠ rows then .error (.dataRowsMismatch data.length rows)
  else
    match findBadRow cols data 0 with
    | some (i, len) => .error (.rowColsMismatch i len cols)
    | none => .ok ⟨rows, cols, data⟩

/-- `zero_matrix(rows, cols)`: asserts non-negative dimensions, builds
`[[0] * cols for _ in range(rows)]`, then constructs `Matrix(...)`. -/
def zero_matrix (rows cols : Int) : Except AssertionError Matrix :=
  if ¬ (0 ≤ rows ∧ 0 ≤ cols) then .error .zeroDimsNegative
  else mkMatrix rows cols (List.replicate rows.toNat (List.replicate cols.toNat 0))

/-- Entry read `m.data[i][j]` as the comprehension in `mat_add` performs it;
the defaults are never reached because `i`/`j` come from
`range(rows)`/`range(cols)` of a well-formed matrix. -/
def entry (m : Matrix) (i j : Nat) : Int :=
  (m.data.getD i []).getD j 0

/-- `mat_add(mat1, mat2)`: asserts equal rows, then equal cols, builds the
elementwise-sum comprehension, and constructs `Matrix(mat1.rows, mat1.cols,
result_data)` (running `__post_init__` again). -/
def mat_add (mat1 mat2 : Matrix) : Except AssertionError Matrix :=
  if mat1.rows ≠ mat2.rows then .error (.rowMismatch mat1.rows mat2.rows)
  else if mat1.cols ≠ mat2.cols then .error (.colMismatch mat1.cols mat2.cols)
  else
    let result_data := (List.range mat1.rows.toNat).map fun i =>
      (List.range mat1.cols.toNat).map fun j => entry mat1 i j + entry mat2 i j
    mkMatrix mat1.rows mat1.cols result_data

/-- The `NonEmpty` dataclass: a distinguished `head` plus the `tail`. -/
structure NonEmpty (α : Type) where
  head : α
  tail : List α
  deriving DecidableEq, Repr

/-- `NonEmpty.to_list`: `[self.head] + self.tail`; total. -/
def NonEmpty.to_list (w : NonEmpty α) : List α :=
  w.head :: w.tail

/-- `vect_to_non_empty(vec)`: asserts `len(vec) >= 1`, returns
`NonEmpty(head=vec[0], tail=vec[1:])`. -/
def vect_to_non_empty (vec : List α) : Except AssertionError (NonEmpty α) :=
  match vec with
  | [] => .error .nonEmptyEmpty
  | h :: t => .ok ⟨h, t⟩

/-- `safe_minimum(vec)`: asserts `len(vec) >= 1`, returns Python's
`min(vec)` — a left fold of binary `min` over the elements. -/
def safe_minimum (vec : List Int) : Except AssertionError Int :=
  match vec with
  | [] => .error .minEmpty
  | h :: t => .ok (t.foldl min h)

/-- `safe_maximum(vec)`: asserts `len(vec) >= 1`, returns Python's
`max(vec)`. -/
def safe_maximum (vec : List Int) : Except AssertionError Int :=
  match vec with
  | [] => .error .maxEmpty
  | h :: t => .ok (t.foldl max h)

/-! Heap-level model for the aliasing/no-mutation claim about `mat_add`.
A Python list object is an address into a store of row cells; a matrix's
`data` holds references to its row objects.  The comprehension in
`mat_add` allocates fresh row lists, which the model appends to the store
at fresh addresses. -/

/-- Store of row objects; the address of a cell is its position. -/
abbrev Store := List (List Int)

/-- Dereference a row address. -/
def readRow (σ : Store) (a : Nat) : List Int :=
  List.getD σ a []

/-- A matrix value whose `data` is a list of references to row objects. -/
structure MatrixRef where
  rows : Int
  cols : Int
  dataAddrs : List Nat
  deriving DecidableEq, Repr

/-- `mat_add` at the heap level: the same two shape asserts, then the
comprehension reads `mat1.data[i][j]` and `mat2.data[i][j]` through the
store and allocates each result row as a fresh cell appended to the
store; the result matrix references only the fresh cells. -/
def mat_add_ref (σ : Store) (mat1 mat2 : MatrixRef) :
    Except AssertionError (Store × MatrixRef) :=
  if mat1.rows ≠ mat2.rows then .error (.rowMismatch mat1.rows mat2.rows)
  else if mat1.cols ≠ mat2.cols then .error (.colMismatch mat1.cols mat2.cols)
  else
    let newRows := (List.range mat1.rows.toNat).map fun i =>
      (List.range mat1.cols.toNat).map fun j =>
        (readRow σ (mat1.dataAddrs.getD i 0)).getD j 0 +
          (readRow σ (mat2.dataAddrs.getD i 0)).getD j 0
    let σ' : Store := List.append σ newRows
    let addrs := (List.range mat1.rows.toNat).map fun i => σ.length + i
    .ok (σ', ⟨mat1.rows, mat1.cols, addrs⟩)

end SafeList

namespace Func

/-- `_helper_function(x)`: returns `x + 1`. -/
def _helper_function (x : Int) : Int :=
  x + 1

/-- `api_function(x)`: returns `_helper_function(x) * 2`. -/
def api_function (x : Int) : Int :=
  _helper_function x * 2

end Func

namespace SafeList

theorem foldl_min_le (t : List Int) (h : Int) : t.foldl min h ≤ h := by
  induction t generalizing h with
  | nil => exact le_refl h
  | cons a t ih => exact le_trans (ih (min h a)) (min_le_left h a)

theorem le_foldl_max (t : List Int) (h : Int) : h ≤ t.foldl max h := by
  induction t generalizing h with
  | nil => exact le_refl h
  | cons a t ih => exact le_trans (le_max_left h a) (ih (max h a))

theorem findBadRow_none_iff (cols : Int) (data : List (List Int)) (i : Nat) :
    findBadRow cols data i = none ↔ ∀ r ∈ data, (r.length : Int) = cols := by
  induction data generalizing i with
  | nil => simp [findBadRow]
  | cons r rest ih =>
      by_cases hr : (r.length : Int) ≠ cols
      · simp [findBadRow, hr]
      · push_neg at hr
        rw [show findBadRow cols (r :: rest) i = findBadRow cols rest (i + 1) by
          simp [findBadRow, hr]]
        rw [ih (i + 1)]
        simp [hr]

theorem mkMatrix_ok_iff (rows cols : Int) (data : List (List Int)) (m : Matrix) :
    mkMatrix rows cols data = .ok m ↔
      0 ≤ rows ∧ 0 ≤ cols ∧ (data.length : Int) = rows ∧
        (∀ r ∈ data, (r.length : Int) = cols) ∧ m = ⟨rows, cols, data⟩ := by
  unfold mkMatrix
  split_ifs with h1 h2 h3
  · simp; omega
  · simp; omega
  · simp; omega
  · cases hb : findBadRow cols data 0 with
    | some p =>
        have : ¬ ∀ r ∈ data, (r.length : Int) = cols := by
          rw [← findBadRow_none_iff cols data 0]
          simp [hb]
        cases p with
        | mk i len => simp only [Except.error.injEq]; constructor
                      · intro h; cases h
                      · intro h; exact absurd h.2.2.2.1 this
    | none =>
        have hall := (findBadRow_none_iff cols data 0).mp hb
        simp only [Except.ok.injEq]
        constructor
        · intro h; exact ⟨by omega, by omega, by omega, hall, h.symm⟩
        · intro h; exact h.2.2.2.2.symm

theorem mkMatrix_ok_wf (rows cols : Int) (data : List (List Int)) (m : Matrix)
    (h : mkMatrix rows cols data = .ok m) : m.wf := by
  obtain ⟨h1, h2, h3, h4, h5⟩ := (mkMatrix_ok_iff rows cols data m).mp h
  subst h5
  exact ⟨h1, h2, h3, h4⟩

theorem getD_map_range (f : Nat → α) (n i : Nat) (h : i < n) (d : α) :
    ((List.range n).map f).getD i d = f i := by
  rw [List.getD_eq_getElem?_getD, List.getElem?_map, List.getElem?_range h]
  rfl

end SafeList

open SafeList Func

/-- C10: for every integer `x`, `api_function x = 2 * (x + 1)`, computed by
doubling the result of the private helper `_helper_function x = x + 1`;
total on integers, no violation possible. -/
theorem api_function_spec :
    ∀ x : Int, api_function x = 2 * (x + 1) ∧
      api_function x = 2 * _helper_function x ∧ _helper_function x = x + 1 := by
  intro x
  unfold api_function _helper_function
  refine ⟨by ring, by ring, rfl⟩

/-- C9: `sum_vect` equals the fold of `+` over the elements starting from
the integer additive identity `0`, and on the empty sequence it returns
`0`. -/
theorem sum_vect_spec :
    (∀ v : List Int, sum_vect v = v.foldr (· + ·) 0) ∧
      (∀ v : List Int, sum_vect v = v.sum) ∧ sum_vect [] = 0 := by
  refine ⟨fun v => ?_, fun v => ?_, rfl⟩
  · exact List.foldl_eq_foldr 0 v
  · simp [sum_vect, List.sum_eq_foldl]

/-- C7: on every non-empty integer sequence, `safe_minimum` and
`safe_maximum` both succeed and the minimum is at most the maximum; on the
empty sequence both raise an assertion classified as ContractViolation. -/
theorem min_max_spec :
    (∀ v : List Int, v ≠ [] →
      ∃ a b, safe_minimum v = .ok a ∧ safe_maximum v = .ok b ∧ a ≤ b) ∧
    (safe_minimum [] = .error .minEmpty ∧ specKindOf .minEmpty = .contract) ∧
    (safe_maximum [] = .error .maxEmpty ∧ specKindOf .maxEmpty = .contract) := by
  refine ⟨fun v hv => ?_, ⟨rfl, rfl⟩, ⟨rfl, rfl⟩⟩
  match v with
  | [] => exact absurd rfl hv
  | h :: t =>
      exact ⟨t.foldl min h, t.foldl max h, rfl, rfl,
        le_trans (foldl_min_le t h) (le_foldl_max t h)⟩

/-- C7 witness: instantiation at the spec's concrete scenario
`[42, 17, 93, 5]`. -/
theorem min_max_spec_witness :
    ∃ a b, safe_minimum [42, 17, 93, 5] = .ok a ∧
      safe_maximum [42, 17, 93, 5] = .ok b ∧ a ≤ b :=
  min_max_spec.1 [42, 17, 93, 5] (by decide)

/-- C6: on every non-empty sequence, `vect_to_non_empty` yields the wrapper
with `head = v[0]` and `tail = v[1:]`, and `to_list` inverts it; on the
empty sequence it raises an assertion classified as ContractViolation; and
`to_list` is total, always returning `head` followed by `tail`. -/
theorem non_empty_spec :
    (∀ (v : List Int) (h : v ≠ []),
      vect_to_non_empty v = .ok ⟨v.head h, v.tail⟩ ∧
        NonEmpty.to_list ⟨v.head h, v.tail⟩ = v) ∧
    (vect_to_non_empty ([] : List Int) = .error .nonEmptyEmpty ∧
      specKindOf .nonEmptyEmpty = .contract) ∧
    (∀ w : NonEmpty Int, w.to_list = w.head :: w.tail) := by
  refine ⟨fun v h => ?_, ⟨rfl, rfl⟩, fun w => rfl⟩
  match v with
  | a :: t => exact ⟨rfl, rfl⟩

/-- C6 witness: instantiation at `[1, 2, 3]`. -/
theorem non_empty_spec_witness :
    vect_to_non_empty [1, 2, 3] = .ok ⟨([1, 2, 3] : List Int).head (by decide),
        ([1, 2, 3] : List Int).tail⟩ ∧
      NonEmpty.to_list ⟨([1, 2, 3] : List Int).head (by decide),
        ([1, 2, 3] : List Int).tail⟩ = [1, 2, 3] :=
  non_empty_spec.1 [1, 2, 3] (by decide)

/-- C2: for every `n, m ≥ 0` and sequence `v` of length `n + m`,
`safe_take n v` succeeds with exactly the first `n` elements,
`safe_drop n v` succeeds with the remaining `m` elements, and the two
concatenate back to `v` (including the edge cases `n = 0` and
`n = length v`). -/
theorem take_drop_spec :
    ∀ (n m : Nat) (v : List Int), v.length = n + m →
      safe_take (n : Int) v = .ok (v.take n) ∧ (v.take n).length = n ∧
      safe_drop (n : Int) v = .ok (v.drop n) ∧ (v.drop n).length = m ∧
      v.take n ++ v.drop n = v := by
  intro n m v hlen
  have hn : ¬ ((n : Int) < 0) := by omega
  have hv : ¬ ((v.length : Int) < (n : Int)) := by omega
  have htn : (n : Int).toNat = n := Int.toNat_natCast n
  have hlt : (v.take n).length = n := by
    rw [List.length_take]; omega
  have hld : (v.drop n).length = m := by
    rw [List.length_drop]; omega
  refine ⟨?_, hlt, ?_, hld, List.take_append_drop n v⟩
  · unfold safe_take
    rw [if_neg hn, if_neg hv, htn]
    rw [if_pos (by rw [hlt])]
  · unfold safe_drop
    rw [if_neg hn, if_neg hv, htn]
    rw [if_pos (by rw [hld]; omega)]

/-- C2 witness: instantiation at `n = 3`, `m = 2`, `v = [1,2,3,4,5]`,
matching the spec's concrete scenario. -/
theorem take_drop_spec_witness :
    safe_take (3 : Int) [1, 2, 3, 4, 5] = .ok (([1, 2, 3, 4, 5] : List Int).take 3) ∧
      (([1, 2, 3, 4, 5] : List Int).take 3).length = 3 ∧
      safe_drop (3 : Int) [1, 2, 3, 4, 5] = .ok (([1, 2, 3, 4, 5] : List Int).drop 3) ∧
      (([1, 2, 3, 4, 5] : List Int).drop 3).length = 2 ∧
      ([1, 2, 3, 4, 5] : List Int).take 3 ++ ([1, 2, 3, 4, 5] : List Int).drop 3 =
        [1, 2, 3, 4, 5] :=
  take_drop_spec 3 2 [1, 2, 3, 4, 5] (by decide)

/-- C5: for every integer index in `[0, length v)`, `safe_index` returns the
element of `v` at that position; a Python `float` index (even an integral
one) fails the `isinstance` assert, classified as ContractViolation — it is
never truncated or coerced. -/
theorem safe_index_spec :
    (∀ (v : List Int) (i : Int), 0 ≤ i → i < (v.length : Int) →
      safe_index (.int i) v = .ok (v.getD i.toNat 0)) ∧
    (∀ (v : List Int) (x : Rat),
      safe_index (.float x) v = .error .indexMustBeInt ∧
        specKindOf AssertionError.indexMustBeInt = .contract) := by
  constructor
  · intro v i h0 h1
    have h : 0 ≤ i ∧ i < (v.length : Int) := ⟨h0, h1⟩
    simp only [safe_index]
    rw [dif_pos h]
    congr 1
    rw [List.getD_eq_getElem?_getD, List.getElem?_eq_getElem (by omega)]
    rfl
  · intro v x
    exact ⟨rfl, rfl⟩

/-- C5 witness: instantiation at `v = [10, 20, 30]`, `i = 2`, and at the
fractional index `5/2`. -/
theorem safe_index_spec_witness :
    safe_index (.int 2) [10, 20, 30] = .ok (([10, 20, 30] : List Int).getD (2 : Int).toNat 0) ∧
      safe_index (.float (5 / 2)) ([10, 20, 30] : List Int) = .error .indexMustBeInt ∧
      specKindOf AssertionError.indexMustBeInt = .contract :=
  ⟨safe_index_spec.1 [10, 20, 30] 2 (by decide) (by decide),
    safe_index_spec.2 [10, 20, 30] (5 / 2)⟩

namespace SafeList

theorem mat_add_mismatch (m1 m2 : Matrix)
    (h : m1.rows ≠ m2.rows ∨ m1.cols ≠ m2.cols) :
    ∃ e, mat_add m1 m2 = .error e ∧ specKindOf e = .shape ∧
      (e = .rowMismatch m1.rows m2.rows ∨ e = .colMismatch m1.cols m2.cols) := by
  by_cases hr : m1.rows ≠ m2.rows
  · exact ⟨.rowMismatch m1.rows m2.rows,
      by unfold mat_add; rw [if_pos hr], rfl, Or.inl rfl⟩
  · have hc : m1.cols ≠ m2.cols := by tauto
    exact ⟨.colMismatch m1.cols m2.cols,
      by unfold mat_add; rw [if_neg hr, if_pos hc], rfl, Or.inr rfl⟩

theorem mkMatrix_error_iff (rows cols : Int) (data : List (List Int)) :
    (rows < 0 ∨ cols < 0 ∨ (data.length : Int) ≠ rows ∨
      ∃ r ∈ data, (r.length : Int) ≠ cols) ↔
    ∃ e, mkMatrix rows cols data = .error e ∧ specKindOf e = .shape := by
  unfold mkMatrix
  split_ifs with h1 h2 h3
  · exact ⟨fun _ => ⟨_, rfl, rfl⟩, fun _ => Or.inl h1⟩
  · exact ⟨fun _ => ⟨_, rfl, rfl⟩, fun _ => Or.inr (Or.inl h2)⟩
  · exact ⟨fun _ => ⟨_, rfl, rfl⟩, fun _ => Or.inr (Or.inr (Or.inl h3))⟩
  · cases hb : findBadRow cols data 0 with
    | some p =>
        have hex : ∃ r ∈ data, (r.length : Int) ≠ cols := by
          by_contra hno
          push_neg at hno
          rw [← findBadRow_none_iff cols data 0] at hno
          rw [hno] at hb; cases hb
        cases p with
        | mk i len =>
            exact ⟨fun _ => ⟨_, rfl, rfl⟩, fun _ => Or.inr (Or.inr (Or.inr hex))⟩
    | none =>
        have hall := (findBadRow_none_iff cols data 0).mp hb
        constructor
        · intro hbad
          rcases hbad with h | h | h | ⟨r, hr, hne⟩
          · omega
          · omega
          · omega
          · exact absurd (hall r hr) hne
        · rintro ⟨e, he, -⟩; cases he

theorem zero_matrix_ok_wf (rows cols : Int) (m : Matrix)
    (h : zero_matrix rows cols = .ok m) : m.wf := by
  unfold zero_matrix at h
  by_cases hd : ¬ (0 ≤ rows ∧ 0 ≤ cols)
  · rw [if_pos hd] at h; cases h
  · rw [if_neg hd] at h
    exact mkMatrix_ok_wf _ _ _ _ h

theorem mat_add_ok_wf (m1 m2 m : Matrix) (h : mat_add m1 m2 = .ok m) : m.wf := by
  unfold mat_add at h
  by_cases hr : m1.rows ≠ m2.rows
  · rw [if_pos hr] at h; cases h
  · rw [if_neg hr] at h
    by_cases hc : m1.cols ≠ m2.cols
    · rw [if_pos hc] at h; cases h
    · rw [if_neg hc] at h
      exact mkMatrix_ok_wf _ _ _ _ h

theorem mat_add_ok (m1 m2 : Matrix) (h1 : m1.wf) (h2 : m2.wf)
    (hr : m1.rows = m2.rows) (hc : m1.cols = m2.cols) :
    mat_add m1 m2 = .ok ⟨m1.rows, m1.cols,
      (List.range m1.rows.toNat).map fun i =>
        (List.range m1.cols.toNat).map fun j => entry m1 i j + entry m2 i j⟩ := by
  unfold mat_add
  rw [if_neg (by simp [hr]), if_neg (by simp [hc])]
  apply (mkMatrix_ok_iff _ _ _ _).mpr
  refine ⟨h1.1, h1.2.1, ?_, ?_, rfl⟩
  · simp [Int.toNat_of_nonneg h1.1]
  · intro r hrm
    simp only [List.mem_map] at hrm
    obtain ⟨i, -, hi⟩ := hrm
    subst hi
    simp [Int.toNat_of_nonneg h1.2.1]

theorem entry_map_range (r c : Int) (f : Nat → Nat → Int) (rn cn i j : Nat)
    (hi : i < rn) (hj : j < cn) :
    entry ⟨r, c, (List.range rn).map fun i => (List.range cn).map fun j => f i j⟩
        i j = f i j := by
  unfold entry
  show (((List.range rn).map fun i => (List.range cn).map fun j => f i j).getD i
      []).getD j 0 = f i j
  rw [getD_map_range _ rn i hi, getD_map_range _ cn j hj]

end SafeList

/-- C1: the violation raised on a constraint failure is distinguishable by
its classification: `zip_vect` on unequal lengths always raises a
ContractViolation, `safe_index` on an out-of-range integer index always
raises a BoundsViolation, `mat_add` on unequal shapes always raises a
ShapeViolation, and the three kinds are pairwise distinct. -/
theorem violation_kinds_spec :
    (∀ (v1 v2 : List Int), v1.length ≠ v2.length →
      ∃ e, zip_vect v1 v2 = .error e ∧ specKindOf e = .contract) ∧
    (∀ (i : Int) (v : List Int), ¬ (0 ≤ i ∧ i < (v.length : Int)) →
      ∃ e, safe_index (.int i) v = .error e ∧ specKindOf e = .bounds) ∧
    (∀ m1 m2 : Matrix, m1.rows ≠ m2.rows ∨ m1.cols ≠ m2.cols →
      ∃ e, mat_add m1 m2 = .error e ∧ specKindOf e = .shape) ∧
    (VKind.contract ≠ VKind.bounds ∧ VKind.contract ≠ VKind.shape ∧
      VKind.bounds ≠ VKind.shape) := by
  refine ⟨fun v1 v2 h => ?_, fun i v h => ?_, fun m1 m2 h => ?_,
    by decide, by decide, by decide⟩
  · exact ⟨.zipLengthMismatch v1.length v2.length,
      by unfold zip_vect; rw [if_pos h], rfl⟩
  · exact ⟨.indexOutOfBounds i v.length,
      by simp only [safe_index]; rw [dif_neg h], rfl⟩
  · obtain ⟨e, he, hk, -⟩ := mat_add_mismatch m1 m2 h
    exact ⟨e, he, hk⟩

/-- C1 witness: instantiation at unequal-length vectors, an out-of-bounds
index, and matrices of unequal row counts. -/
theorem violation_kinds_spec_witness :
    (∃ e, zip_vect ([1] : List Int) ([] : List Int) = .error e ∧
      specKindOf e = .contract) ∧
    (∃ e, safe_index (.int 3) ([1, 2, 3] : List Int) = .error e ∧
      specKindOf e = .bounds) ∧
    (∃ e, mat_add ⟨2, 3, [[1, 2, 3], [4, 5, 6]]⟩
        ⟨3, 3, [[1, 2, 3], [4, 5, 6], [7, 8, 9]]⟩ = .error e ∧
      specKindOf e = .shape) :=
  ⟨violation_kinds_spec.1 [1] [] (by decide),
    violation_kinds_spec.2.1 3 [1, 2, 3] (by decide),
    violation_kinds_spec.2.2.1 ⟨2, 3, [[1, 2, 3], [4, 5, 6]]⟩
      ⟨3, 3, [[1, 2, 3], [4, 5, 6], [7, 8, 9]]⟩ (by decide)⟩

/-- C3: on well-formed matrices of equal shape, `mat_add` succeeds with a
matrix of the same shape whose `(i, j)` entry is the sum of the operands'
`(i, j)` entries; on unequal shapes it raises a ShapeViolation that names
the mismatched dimension (rows vs. cols). -/
theorem mat_add_spec :
    (∀ m1 m2 : Matrix, m1.wf → m2.wf → m1.rows = m2.rows → m1.cols = m2.cols →
      ∃ m, mat_add m1 m2 = .ok m ∧ m.rows = m1.rows ∧ m.cols = m1.cols ∧
        ∀ i j, i < m1.rows.toNat → j < m1.cols.toNat →
          entry m i j = entry m1 i j + entry m2 i j) ∧
    (∀ m1 m2 : Matrix, m1.rows ≠ m2.rows ∨ m1.cols ≠ m2.cols →
      ∃ e, mat_add m1 m2 = .error e ∧ specKindOf e = .shape ∧
        (e = .rowMismatch m1.rows m2.rows ∨ e = .colMismatch m1.cols m2.cols)) := by
  refine ⟨fun m1 m2 h1 h2 hr hc => ?_, mat_add_mismatch⟩
  refine ⟨_, mat_add_ok m1 m2 h1 h2 hr hc, rfl, rfl, fun i j hi hj => ?_⟩
  exact entry_map_range m1.rows m1.cols _ _ _ i j hi hj

/-- C3 witness: the spec's concrete scenario
`add(Matrix(2,3,[[1,2,3],[4,5,6]]), Matrix(2,3,[[7,8,9],[10,11,12]]))`. -/
theorem mat_add_spec_witness :
    ∃ m, mat_add ⟨2, 3, [[1, 2, 3], [4, 5, 6]]⟩
        ⟨2, 3, [[7, 8, 9], [10, 11, 12]]⟩ = .ok m ∧
      m.rows = (⟨2, 3, [[1, 2, 3], [4, 5, 6]]⟩ : Matrix).rows ∧
      m.cols = (⟨2, 3, [[1, 2, 3], [4, 5, 6]]⟩ : Matrix).cols ∧
      ∀ i j, i < (⟨2, 3, [[1, 2, 3], [4, 5, 6]]⟩ : Matrix).rows.toNat →
        j < (⟨2, 3, [[1, 2, 3], [4, 5, 6]]⟩ : Matrix).cols.toNat →
        entry m i j = entry ⟨2, 3, [[1, 2, 3], [4, 5, 6]]⟩ i j +
          entry ⟨2, 3, [[7, 8, 9], [10, 11, 12]]⟩ i j :=
  mat_add_spec.1 ⟨2, 3, [[1, 2, 3], [4, 5, 6]]⟩ ⟨2, 3, [[7, 8, 9], [10, 11, 12]]⟩
    (by decide) (by decide) (by decide) (by decide)

/-- C4: `mkMatrix` validates the invariant eagerly — it fails, classified
as ShapeViolation, exactly when `rows < 0`, `cols < 0`, `length data ≠
rows`, or some row's length differs from `cols`; every matrix it returns
satisfies the invariant, and so do the matrices returned by `zero_matrix`
and `mat_add`. -/
theorem matrix_invariant_spec :
    (∀ (rows cols : Int) (data : List (List Int)) (m : Matrix),
      mkMatrix rows cols data = .ok m → m = ⟨rows, cols, data⟩ ∧ m.wf) ∧
    (∀ (rows cols : Int) (data : List (List Int)),
      (rows < 0 ∨ cols < 0 ∨ (data.length : Int) ≠ rows ∨
        ∃ r ∈ data, (r.length : Int) ≠ cols) ↔
      ∃ e, mkMatrix rows cols data = .error e ∧ specKindOf e = .shape) ∧
    (∀ (rows cols : Int) (m : Matrix), zero_matrix rows cols = .ok m → m.wf) ∧
    (∀ m1 m2 m : Matrix, mat_add m1 m2 = .ok m → m.wf) := by
  refine ⟨fun rows cols data m h => ?_, mkMatrix_error_iff,
    zero_matrix_ok_wf, mat_add_ok_wf⟩
  obtain ⟨-, -, -, -, h5⟩ := (mkMatrix_ok_iff rows cols data m).mp h
  exact ⟨h5, mkMatrix_ok_wf _ _ _ _ h⟩

/-- C4 witness: instantiations at a valid construction, at a ragged
construction, at `zero_matrix 2 2`, and at a concrete addition. -/
theorem matrix_invariant_spec_witness :
    ((⟨2, 2, [[1, 2], [3, 4]]⟩ : Matrix) = ⟨2, 2, [[1, 2], [3, 4]]⟩ ∧
      Matrix.wf ⟨2, 2, [[1, 2], [3, 4]]⟩) ∧
    (∃ e, mkMatrix 2 3 [[1, 2], [4, 5, 6]] = .error e ∧
      specKindOf e = .shape) ∧
    Matrix.wf ⟨2, 2, [[0, 0], [0, 0]]⟩ ∧
    Matrix.wf ⟨1, 1, [[5]]⟩ :=
  ⟨matrix_invariant_spec.1 2 2 [[1, 2], [3, 4]] ⟨2, 2, [[1, 2], [3, 4]]⟩ rfl,
    (matrix_invariant_spec.2.1 2 3 [[1, 2], [4, 5, 6]]).mp (by decide),
    matrix_invariant_spec.2.2.1 2 2 ⟨2, 2, [[0, 0], [0, 0]]⟩ rfl,
    matrix_invariant_spec.2.2.2 ⟨1, 1, [[2]]⟩ ⟨1, 1, [[3]]⟩ ⟨1, 1, [[5]]⟩ rfl⟩

/-- C8: at the heap level, `mat_add` on equal-shape matrices succeeds,
leaves every pre-existing store cell — in particular every row of both
operands — unchanged, and returns a matrix whose backing rows are freshly
allocated cells, aliasing neither operand's rows. -/
theorem mat_add_no_mutation_spec :
    ∀ (σ : Store) (m1 m2 : MatrixRef),
      m1.rows = m2.rows → m1.cols = m2.cols →
      (∀ a ∈ m1.dataAddrs, a < σ.length) →
      (∀ a ∈ m2.dataAddrs, a < σ.length) →
      ∃ σ' r, mat_add_ref σ m1 m2 = .ok (σ', r) ∧
        r.rows = m1.rows ∧ r.cols = m1.cols ∧
        (∀ a, a < σ.length → σ'[a]? = σ[a]?) ∧
        (∀ a ∈ m1.dataAddrs, readRow σ' a = readRow σ a) ∧
        (∀ a ∈ m2.dataAddrs, readRow σ' a = readRow σ a) ∧
        (∀ a ∈ r.dataAddrs, σ.length ≤ a) ∧
        (∀ a ∈ r.dataAddrs, a ∉ m1.dataAddrs ∧ a ∉ m2.dataAddrs) := by
  intro σ m1 m2 hr hc ha1 ha2
  refine ⟨σ ++ ((List.range m1.rows.toNat).map fun i =>
      (List.range m1.cols.toNat).map fun j =>
        (readRow σ (m1.dataAddrs.getD i 0)).getD j 0 +
          (readRow σ (m2.dataAddrs.getD i 0)).getD j 0),
    ⟨m1.rows, m1.cols, (List.range m1.rows.toNat).map fun i => σ.length + i⟩,
    ?_, rfl, rfl, ?_, ?_, ?_, ?_, ?_⟩
  · unfold mat_add_ref
    rw [if_neg (by simp [hr]), if_neg (by simp [hc])]
    rfl
  · intro a ha
    exact List.getElem?_append_left ha
  · intro a ha
    unfold readRow
    rw [List.getD_eq_getElem?_getD, List.getD_eq_getElem?_getD,
      List.getElem?_append_left (ha1 a ha)]
  · intro a ha
    unfold readRow
    rw [List.getD_eq_getElem?_getD, List.getD_eq_getElem?_getD,
      List.getElem?_append_left (ha2 a ha)]
  · intro a ha
    simp only [List.mem_map, List.mem_range] at ha
    obtain ⟨i, -, hi⟩ := ha
    omega
  · intro a ha
    simp only [List.mem_map, List.mem_range] at ha
    obtain ⟨i, -, hi⟩ := ha
    constructor
    · intro hmem
      have := ha1 a hmem
      omega
    · intro hmem
      have := ha2 a hmem
      omega

/-- C8 witness: instantiation at a two-cell store holding the single rows
of two 1×2 matrices. -/
theorem mat_add_no_mutation_spec_witness :
    ∃ σ' r, mat_add_ref [[1, 2], [3, 4]] ⟨1, 2, [0]⟩ ⟨1, 2, [1]⟩ = .ok (σ', r) ∧
      r.rows = (⟨1, 2, [0]⟩ : MatrixRef).rows ∧
      r.cols = (⟨1, 2, [0]⟩ : MatrixRef).cols ∧
      (∀ a, a < ([[1, 2], [3, 4]] : Store).length →
        σ'[a]? = ([[1, 2], [3, 4]] : Store)[a]?) ∧
      (∀ a ∈ (⟨1, 2, [0]⟩ : MatrixRef).dataAddrs,
        readRow σ' a = readRow [[1, 2], [3, 4]] a) ∧
      (∀ a ∈ (⟨1, 2, [1]⟩ : MatrixRef).dataAddrs,
        readRow σ' a = readRow [[1, 2], [3, 4]] a) ∧
      (∀ a ∈ r.dataAddrs, ([[1, 2], [3, 4]] : Store).length ≤ a) ∧
      (∀ a ∈ r.dataAddrs, a ∉ (⟨1, 2, [0]⟩ : MatrixRef).dataAddrs ∧
        a ∉ (⟨1, 2, [1]⟩ : MatrixRef).dataAddrs) :=
  mat_add_no_mutation_spec [[1, 2], [3, 4]] ⟨1, 2, [0]⟩ ⟨1, 2, [1]⟩
    rfl rfl (by decide) (by decide)
